/-
Verification of the retrieval-augmented answer pipeline of this repository
against its specification.

The Python source is shallowly embedded: pure functions become Lean
functions over `String` / `List Char` / `ℚ`; external collaborators
(the Ollama embedding and chat backends, the pgvector database
connection, the fuzzy category matcher backed by third-party libraries)
are modelled as explicit parameters or outcome values.  Python floats
are modelled by exact rationals, Python exceptions by `Option` or
`Except`, and Python string operations are re-implemented character by
character so that every definition evaluates inside the kernel.
-/
import Mathlib

/-! ## Character-level models of the Python string primitives -/

/-- Python `str.split()` on a character list: split on runs of whitespace,
dropping empty pieces.  `acc` holds the current word, reversed. -/
def pyWordsAux : List Char → List Char → List (List Char)
  | [], acc => if acc.isEmpty then [] else [acc.reverse]
  | c :: cs, acc =>
    if c.isWhitespace then
      if acc.isEmpty then pyWordsAux cs [] else acc.reverse :: pyWordsAux cs []
    else pyWordsAux cs (c :: acc)

/-- Python `str.split()`: the whitespace-separated words of a string. -/
def pyWords (s : String) : List String := (pyWordsAux s.data []).map String.mk

/-- Python `len(s.split())`. -/
def wordCount (s : String) : Nat := (pyWords s).length

/-- Python `str.strip()` on a character list. -/
def trimL (cs : List Char) : List Char :=
  ((cs.dropWhile Char.isWhitespace).reverse.dropWhile Char.isWhitespace).reverse

/-- Python `str.strip()`. -/
def pyStrip (s : String) : String := String.mk (trimL s.data)

/-- Python `str.lower()` (the source only lowercases ASCII text). -/
def pyLower (s : String) : String := String.mk (s.data.map Char.toLower)

/-- Locate the first occurrence of `pat` in `cs`, returning the characters
before it and the characters after it. -/
def breakOnL (pat : List Char) : List Char → Option (List Char × List Char)
  | [] => if pat.isEmpty then some ([], []) else none
  | c :: cs =>
    if pat.isPrefixOf (c :: cs) then some ([], (c :: cs).drop pat.length)
    else match breakOnL pat cs with
      | some (b, a) => some (c :: b, a)
      | none => none

/-- Python `str.split(sep)` on character lists (`sep` nonempty), with fuel
bounding the recursion depth; `splitSub` supplies enough fuel. -/
def splitSubAux (pat : List Char) : Nat → List Char → List (List Char)
  | 0, cs => [cs]
  | fuel + 1, cs =>
    match breakOnL pat cs with
    | some (b, a) => b :: splitSubAux pat fuel a
    | none => [cs]

/-- Python `str.split(sep)` for a nonempty separator. -/
def splitSub (pat : List Char) (cs : List Char) : List (List Char) :=
  splitSubAux pat (cs.length + 1) cs

/-- Python `s.split(sep)` at the `String` level. -/
def pySplitOn (s sep : String) : List String := (splitSub sep.data s.data).map String.mk

/-- Python `sub in s`: substring containment. -/
def containsSub (s sub : String) : Bool := (breakOnL sub.data s.data).isSome

/-- Python `s.replace(old, new)` on character lists (`old` nonempty), with fuel. -/
def replaceSubAux (old new : List Char) : Nat → List Char → List Char
  | 0, cs => cs
  | fuel + 1, cs =>
    match breakOnL old cs with
    | some (b, a) => b ++ new ++ replaceSubAux old new fuel a
    | none => cs

/-- Python `s.replace(old, new)` for a nonempty pattern. -/
def pyReplace (s old new : String) : String :=
  String.mk (replaceSubAux old.data new.data (s.data.length + 1) s.data)

/-- Python `s.count(sub)`: non-overlapping occurrence count, with fuel. -/
def countSubAux (pat : List Char) : Nat → List Char → Nat
  | 0, _ => 0
  | fuel + 1, cs =>
    match breakOnL pat cs with
    | some (_, a) => 1 + countSubAux pat fuel a
    | none => 0

/-- Python `s.count(sub)` for a nonempty pattern. -/
def countSub (s pat : String) : Nat := countSubAux pat.data (s.data.length + 1) s.data

/-- Python `s.find(sub, start)`: index of the first occurrence of `sub` at or
after `start`, or `-1`. -/
def pyFind (s sub : String) (start : Nat) : Int :=
  match breakOnL sub.data (s.data.drop start) with
  | some (b, _) => (start : Int) + b.length
  | none => -1

/-- Python `s[:k]` (character slicing from the left). -/
def pyTake (s : String) (k : Nat) : String := String.mk (s.data.take k)

/-- Python `list(set(xs))`.  CPython returns the set's elements in an
unspecified, hash-dependent order; the model fixes the order of first
appearance.  No theorem below depends on the order of a deduplicated
list with more than one element. -/
def dedupFirstAux (seen : List String) : List String → List String
  | [] => []
  | x :: xs => if x ∈ seen then dedupFirstAux seen xs else x :: dedupFirstAux (x :: seen) xs

/-- Python `list(set(xs))`, modelled as first-occurrence deduplication. -/
def dedupFirst (xs : List String) : List String := dedupFirstAux [] xs

/-- Total character length of a chunk list: Python `len("".join(chunks))`. -/
def totalLen (cs : List String) : Nat := (cs.map String.length).sum

/-! ## ChunkingEngine: `chunk_text` from `src/api/app/core/embedding.py` -/

namespace Api

/-- Adaptive chunk-size selection in `chunk_text` when `chunk_size is None`. -/
def adaptiveChunkSize (textLength : Nat) : Nat :=
  if textLength < 500 then 150
  else if textLength < 2000 then 300
  else if textLength < 10000 then 500
  else 800

/-- The chunk size `chunk_text` actually uses: the explicit argument, or the
adaptively chosen one. -/
def effectiveChunkSize (text : String) (chunkSize : Option Nat) : Nat :=
  match chunkSize with
  | some n => n
  | none => adaptiveChunkSize (pyWords text).length

/-- Loop state of the sentence-accumulation loop in `chunk_text`:
the closed chunks, the chunk under construction, and its word count. -/
structure ChunkState where
  chunks : List String
  current : String
  count : Nat

/-- One iteration of `for sentence in sentences` in `chunk_text`. -/
def sentenceStep (chunkSize overlap : Nat) (st : ChunkState) (sentence : String) : ChunkState :=
  let s := pyStrip sentence
  if s = "" then st
  else
    let sw := wordCount s
    if chunkSize < st.count + sw ∧ st.current ≠ "" then
      let closed := pyStrip st.current
      let chunks := st.chunks ++ [closed]
      if 0 < overlap then
        let prevWords := pyWords closed
        let overlapText :=
          if overlap < prevWords.length then
            String.intercalate " " (prevWords.drop (prevWords.length - overlap))
          else closed
        let cur := overlapText ++ ". " ++ s ++ "."
        { chunks := chunks, current := cur, count := wordCount cur }
      else
        { chunks := chunks, current := s ++ ".", count := sw }
    else
      if st.current ≠ "" then
        { st with current := st.current ++ ". " ++ s ++ ".", count := st.count + sw }
      else
        { st with current := s ++ ".", count := st.count + sw }

/-- The sentence-based chunking pass of `chunk_text`. -/
def sentenceChunks (text : String) (chunkSize overlap : Nat) : List String :=
  let sentences := pySplitOn text "."
  let st := sentences.foldl (sentenceStep chunkSize overlap) ⟨[], "", 0⟩
  if pyStrip st.current ≠ "" then st.chunks ++ [pyStrip st.current] else st.chunks

/-- The condition under which `chunk_text` abandons the sentence-based chunks:
no chunks, or some chunk longer than 1.5x the target size (exact arithmetic:
`len > chunk_size * 1.5` iff `3 * chunk_size < 2 * len`). -/
def wordFallbackCond (chunks : List String) (chunkSize : Nat) : Bool :=
  chunks.isEmpty || chunks.any (fun c => 3 * chunkSize < 2 * wordCount c)

/-- Python `range(0, stop, step)` for positive `step`. -/
def pyRange (stop step : Nat) : List Nat := List.range' 0 ((stop + step - 1) / step) step

/-- The sliding-window word chunking used as fallback in `chunk_text`. -/
def wordWindows (ws : List String) (chunkSize step : Nat) : List String :=
  (pyRange ws.length step).map (fun i => String.intercalate " " ((ws.drop i).take chunkSize))

/-- `chunk_text(text, chunk_size, overlap_words)` from
`src/api/app/core/embedding.py`.  `none` models the `ValueError` Python's
`range` raises when its step `chunk_size - overlap_words` is zero; a
negative step makes `range` empty, so the fallback returns `[]`. -/
def chunk_text (text : String) (chunkSize : Option Nat) (overlap : Nat) : Option (List String) :=
  let words := pyWords text
  let size := effectiveChunkSize text chunkSize
  if words.length ≤ size then some [text]
  else
    let chunks := sentenceChunks text size overlap
    if wordFallbackCond chunks size then
      if size ≤ overlap then
        if size = overlap then none
        else some []
      else some (wordWindows words size (size - overlap))
    else some (chunks.filter (fun c => 10 ≤ wordCount c))

end Api

/-! ## EmbeddingService: vector normalization from `embedding.py`

The Ollama backend returns a raw vector (`response['embedding']`); the code
then divides it by its computed L2 norm (`np.linalg.norm`).  The raw vector
and the value the norm computation produces are inputs of the model; the
norm value `n` is characterized against the vector by `n * n = sqNorm v`
(exact arithmetic in place of floating point). -/

/-- Squared Euclidean (L2) norm of a rational vector. -/
def sqNorm (v : List ℚ) : ℚ := (v.map (fun x => x * x)).sum

/-- `embedding / norm`: the elementwise division performed by
`embed_chunks`, `embed_chunks_async` and `embed_query_async`. -/
def normalizeWith (n : ℚ) (v : List ℚ) : List ℚ := v.map (fun x => x / n)

/-- The vectors produced by `embed_chunks_async` / `embed_chunks`: each raw
backend vector paired with its computed norm, normalized elementwise. -/
def embed_chunks_vectors (raw : List (List ℚ × ℚ)) : List (List ℚ) :=
  raw.map (fun p => normalizeWith p.2 p.1)

/-- The vector produced by `embed_query_async` from the raw backend vector
`v` and its computed norm `n`. -/
def embed_query_vector (v : List ℚ) (n : ℚ) : List ℚ := normalizeWith n v

/-! ## VectorStore and RetrievalEngine -/

/-- A stored passage row `(id, tenant_id, content, embedding)` of the
`embeddings` table.  (The metadata column plays no role in retrieval.) -/
structure Row where
  id : String
  tenant_id : String
  content : String
  embedding : List ℚ

/-- Insert into a list sorted ascending by `key`, keeping existing order
among ties. -/
def insertAsc (key : Row → ℚ) (r : Row) : List Row → List Row
  | [] => [r]
  | x :: xs => if key x ≤ key r then x :: insertAsc key r xs else r :: x :: xs

/-- Sort ascending by `key` (insertion sort).  SQL `ORDER BY` leaves the
order among exact distance ties unspecified; the model fixes one stable
order, and no theorem below depends on the order among ties. -/
def sortAsc (key : Row → ℚ) : List Row → List Row
  | [] => []
  | x :: xs => insertAsc key x (sortAsc key xs)

/-- The SQL query shape both retrieval implementations issue:
`SELECT content FROM embeddings WHERE tenant_id = :tenant
ORDER BY embedding <-> :query_emb LIMIT :top_k`.
The pgvector distance operator `<->` is the parameter `dist`. -/
def vector_query (dist : List ℚ → List ℚ → ℚ) (store : List Row) (tenant : String)
    (emb : List ℚ) (k : Nat) : List Row :=
  (sortAsc (fun r => dist r.embedding emb) (store.filter (fun r => r.tenant_id == tenant))).take k

namespace Api

/-- `retrieve_relevant_chunks` from `src/api/app/core/rag.py`.
`embedRes` is the outcome of `await embed_query_async(query)` and `dbErr`
a database connectivity failure (`none` = the query succeeds).  The whole
body sits in one `try`, whose `except` returns `[]`; the `Except` codomain
records that no failure escapes the function. -/
def retrieve_relevant_chunks (dist : List ℚ → List ℚ → ℚ)
    (embedRes : Except String (List ℚ)) (dbErr : Option String)
    (store : List Row) (tenant : String) (top_k : Nat) : Except String (List String) :=
  match embedRes with
  | .error _ => .ok []
  | .ok emb =>
    match dbErr with
    | some _ => .ok []
    | none => .ok ((vector_query dist store tenant emb top_k).map (fun r => r.content))

end Api

namespace App

/-- One iteration of the category-collection loops in
`detect_category_in_query` (`src/app/rag.py`).  State: the appended
category list and the `confidences` map (as an association list whose
most recent binding shadows older ones).  `normCat` models
`category_manager.normalize_category(text, threshold=0.7)`, which is
backed by the configured category vocabulary and third-party fuzzy
matching libraries (external collaborators): it returns the matched
category and its confidence, or `none`. -/
def catStep (normCat : String → Option (String × ℚ))
    (st : List String × List (String × ℚ)) (w : String) : List String × List (String × ℚ) :=
  match normCat w with
  | none => st
  | some (c, conf) =>
    if c = "" then st
    else
      match st.2.lookup c with
      | none => (st.1 ++ [c], (c, conf) :: st.2)
      | some old => if old < conf then (st.1 ++ [c], (c, conf) :: st.2) else st

/-- The adjacent-word pairs scanned by the bigram loop of
`detect_category_in_query`, restricted to words longer than 2 characters. -/
def bigramsOf (ws : List String) : List String :=
  ((ws.zip (ws.drop 1)).filter
    (fun p => decide (2 < p.1.length) && decide (2 < p.2.length))).map
    (fun p => p.1 ++ " " ++ p.2)

/-- `detect_category_in_query` from `src/app/rag.py`: fuzzy-match single
words (longer than 3 characters) and bigrams of the lowercased query
against the category vocabulary, and return the unique detected
categories. -/
def detect_category_in_query (normCat : String → Option (String × ℚ)) (query : String) :
    List String :=
  let ws := pyWords (pyLower query)
  let st1 := (ws.filter (fun w => 3 < w.length)).foldl (catStep normCat) ([], [])
  let st2 := (bigramsOf ws).foldl (catStep normCat) st1
  dedupFirst st2.1

/-- The query-broadening step of `retrieve_relevant_chunks`
(`src/app/rag.py`): append detected categories, or rephrase short /
provider-seeking queries. -/
def enhancedQuery (normCat : String → Option (String × ℚ)) (query : String) : String :=
  let detected := detect_category_in_query normCat query
  if detected ≠ [] then
    query ++ " (categories: " ++ String.intercalate ", " detected ++ ")"
  else if query.length < 10 ∨
      (["provider", "find", "who", "recommend"].any (fun t => containsSub (pyLower query) t)) then
    "Provider information for " ++ query
  else query

/-- The chunk list of `retrieve_relevant_chunks` (`src/app/rag.py`) after
the first tenant-scoped search with the enhanced query and the
category-specific widening pass, but before the raw-query fallback. -/
def preChunks (normCat : String → Option (String × ℚ)) (embed : String → List ℚ)
    (dist : List ℚ → List ℚ → ℚ) (store : List Row) (query tenant : String) (top_k : Nat) :
    List String :=
  let detected := detect_category_in_query normCat query
  let chunks1 := (vector_query dist store tenant (embed (enhancedQuery normCat query)) top_k).map
    (fun r => r.content)
  let hasNorm := chunks1.any
    (fun c => containsSub c "CATEGORIES:" || containsSub c "CONTACT INFORMATION:")
  if detected ≠ [] ∧ hasNorm = false then
    let catQueries := detected.map (fun c => "Information about " ++ c ++ " services for " ++ query)
    let catChunks := (catQueries.map
      (fun cq => (vector_query dist store tenant (embed cq) 2).map (fun r => r.content))).flatten
    if catChunks ≠ [] then
      let uniqueChunks := dedupFirst (catChunks.filter (fun c => c ∉ chunks1))
      (chunks1 ++ uniqueChunks).take (top_k + 2)
    else chunks1
  else chunks1

/-- The chunk list retrieved with the unmodified original query's
embedding (the raw-query fallback of `retrieve_relevant_chunks`). -/
def origChunks (embed : String → List ℚ) (dist : List ℚ → List ℚ → ℚ) (store : List Row)
    (query tenant : String) (top_k : Nat) : List String :=
  (vector_query dist store tenant (embed query) top_k).map (fun r => r.content)

/-- `retrieve_relevant_chunks` from `src/app/rag.py`.  All database access
sits inside one `try` whose `except` returns `[]` (`dbErr` injects a
connectivity failure); `embed` models `embedder.encode(..)[0]`. -/
def retrieve_relevant_chunks (normCat : String → Option (String × ℚ))
    (embed : String → List ℚ) (dist : List ℚ → List ℚ → ℚ) (store : List Row)
    (query tenant : String) (top_k : Nat) (dbErr : Option String) : Except String (List String) :=
  match dbErr with
  | some _ => .ok []
  | none =>
    let pre := preChunks normCat embed dist store query tenant top_k
    if totalLen pre < 100 ∧ enhancedQuery normCat query ≠ query then
      let orig := origChunks embed dist store query tenant top_k
      .ok (if totalLen pre < totalLen orig then orig else pre)
    else .ok pre

end App

/-! ## StructuredExtractor: regex machinery

`extract_contact_info` (`src/api/app/core/rag.py`) relies on three fixed
regular expressions evaluated by `re.findall`.  Each is embedded as a
hand-specialized matcher with Python's backtracking semantics (leftmost
match, greedy quantifiers and alternatives tried in order, `\b` word
boundaries, non-overlapping scans resuming at each match's end). -/

/-- Python regex word character `\w` (the source only matches ASCII text). -/
def isWordC (c : Char) : Bool := c.isAlphanum || c == '_'

def isWordOpt : Option Char → Bool
  | some c => isWordC c
  | none => false

/-- The `\b` assertion between two adjacent positions (`none` = start or
end of the string). -/
def boundaryB (prev next : Option Char) : Bool := isWordOpt prev != isWordOpt next

/-- The phone separator class `[-.\s]`. -/
def isPhoneSep (c : Char) : Bool := c == '-' || c == '.' || c.isWhitespace

/-- Match exactly `n` digits (`\d{n}`). -/
def takeDigits : Nat → List Char → Option (List Char × List Char)
  | 0, cs => some ([], cs)
  | _ + 1, [] => none
  | n + 1, c :: cs =>
    if c.isDigit then
      match takeDigits n cs with
      | some (d, r) => some (c :: d, r)
      | none => none
    else none

/-- The trailing `\b` after a digit: the next character must not be a word
character. -/
def digitEndB (rest : List Char) : Bool :=
  match rest with
  | [] => true
  | c :: _ => !isWordC c

/-- `\d{3}[-.\s]?\d{4}\b`, the mandatory tail of the phone pattern.  The
greedy optional separator needs no backtracking: de-consuming it would
place a non-digit where `\d` is required. -/
def phoneTail7 (cs : List Char) : Option (List Char × List Char) :=
  match takeDigits 3 cs with
  | none => none
  | some (d3, r1) =>
    match r1 with
    | c :: r2 =>
      if isPhoneSep c then
        match takeDigits 4 r2 with
        | some (d4, r3) => if digitEndB r3 then some (d3 ++ c :: d4, r3) else none
        | none => none
      else
        match takeDigits 4 r1 with
        | some (d4, r3) => if digitEndB r3 then some (d3 ++ d4, r3) else none
        | none => none
    | [] => none

/-- One attempt of `(?:\(\d{3}\)\s*|\d{3}[-.\s]?)?\d{3}[-.\s]?\d{4}\b` at
the current position (the leading `\b` is checked by the scan driver).
Alternatives in Python preference order: parenthesized area code,
area code with optional separator, no area code. -/
def matchPhoneAt (cs : List Char) : Option (List Char × List Char) :=
  let altA : Option (List Char × List Char) :=
    match cs with
    | '(' :: r1 =>
      match takeDigits 3 r1 with
      | some (d3, ')' :: r2) =>
        let ws := r2.takeWhile Char.isWhitespace
        let r3 := r2.drop ws.length
        match phoneTail7 r3 with
        | some (t, r4) => some (('(' :: d3 ++ ')' :: ws) ++ t, r4)
        | none => none
      | _ => none
    | _ => none
  match altA with
  | some res => some res
  | none =>
    let altB : Option (List Char × List Char) :=
      match takeDigits 3 cs with
      | some (d3, c :: r2) =>
        if isPhoneSep c then
          match phoneTail7 r2 with
          | some (t, r3) => some ((d3 ++ [c]) ++ t, r3)
          | none => none
        else
          match phoneTail7 (c :: r2) with
          | some (t, r3) => some (d3 ++ t, r3)
          | none => none
      | _ => none
    match altB with
    | some res => some res
    | none => phoneTail7 cs

/-- `re.findall` scan driver: try the pattern at each position from the
left (checking the leading `\b` when `useB` is set), emit non-overlapping
matches, resume after each match.  Every pattern matches at least one
character, so `length + 1` fuel suffices. -/
def reFindAux (attempt : List Char → Option (List Char × List Char)) (useB : Bool) :
    Nat → Option Char → List Char → List (List Char)
  | 0, _, _ => []
  | fuel + 1, prev, cs =>
    match cs with
    | [] => []
    | c :: rest =>
      match (if !useB || boundaryB prev (some c) then attempt cs else none) with
      | some (m, r) => m :: reFindAux attempt useB fuel m.getLast? r
      | none => reFindAux attempt useB fuel (some c) rest

/-- `re.findall(phone_pattern, s)` for the phone pattern of
`extract_contact_info`. -/
def phone_findall (s : String) : List String :=
  (reFindAux matchPhoneAt true (s.data.length + 1) none s.data).map String.mk

/-- The local-part class `[A-Za-z0-9._%+-]` of the email pattern. -/
def isEmailL (c : Char) : Bool :=
  c.isAlphanum || c == '.' || c == '_' || c == '%' || c == '+' || c == '-'

/-- The domain class `[A-Za-z0-9.-]` of the email pattern. -/
def isEmailM (c : Char) : Bool := c.isAlphanum || c == '.' || c == '-'

/-- The top-level-domain class `[A-Z|a-z]` of the email pattern (the
source's character class literally includes `|`). -/
def isEmailT (c : Char) : Bool := c.isAlpha || c == '|'

/-- Greedy `[A-Z|a-z]{2,}\b`: try top-level-domain lengths from the
longest down to 2, accepting the first with a valid trailing `\b`. -/
def tryTldLen (trun tail : List Char) : Nat → Option Nat
  | 0 => none
  | 1 => none
  | t + 2 =>
    let len := t + 2
    let lastC := trun.getD (len - 1) ' '
    let next := (trun.drop len ++ tail).head?
    if boundaryB (some lastC) next then some len
    else tryTldLen trun tail (t + 1)

/-- Greedy `[A-Za-z0-9.-]+\.` with backtracking: try domain lengths from
the longest down, requiring a literal `.` right after the consumed part,
then the top-level domain. -/
def tryDomain (lrun mrun tail : List Char) : Nat → Option (List Char × List Char)
  | 0 => none
  | k + 1 =>
    (if k + 1 < mrun.length ∧ mrun.getD (k + 1) ' ' = '.' then
      let suffix2 := mrun.drop (k + 2) ++ tail
      let trun := suffix2.takeWhile isEmailT
      let resttail := suffix2.drop trun.length
      match tryTldLen trun resttail trun.length with
      | some t =>
        some ((lrun ++ '@' :: mrun.take (k + 1)) ++ '.' :: trun.take t,
          trun.drop t ++ resttail)
      | none => none
    else none).orElse (fun _ => tryDomain lrun mrun tail k)

/-- One attempt of `[A-Za-z0-9._%+-]+@[A-Za-z0-9.-]+\.[A-Z|a-z]{2,}\b` at
the current position (leading `\b` checked by the driver).  The greedy
local part needs no backtracking because `@` is not in its class. -/
def matchEmailAt (cs : List Char) : Option (List Char × List Char) :=
  let lrun := cs.takeWhile isEmailL
  if lrun.isEmpty then none
  else
    match cs.drop lrun.length with
    | '@' :: r1 =>
      let mrun := r1.takeWhile isEmailM
      let tail := r1.drop mrun.length
      tryDomain lrun mrun tail mrun.length
    | _ => none

/-- `re.findall(email_pattern, s)` for the email pattern of
`extract_contact_info`. -/
def email_findall (s : String) : List String :=
  (reFindAux matchEmailAt true (s.data.length + 1) none s.data).map String.mk

/-- The characters excluded by the URL body class (besides whitespace). -/
def urlExcl : List Char :=
  ['<', '>', Char.ofNat 34, Char.ofNat 123, Char.ofNat 125, '|', Char.ofNat 92, '^',
   Char.ofNat 96, '[', ']']

/-- The URL body class of the url pattern. -/
def isUrlC (c : Char) : Bool := !(c.isWhitespace || urlExcl.contains c)

/-- The additional punctuation the final URL character must avoid. -/
def isUrlPunct (c : Char) : Bool := c == '.' || c == ',' || c == ';' || c == '!' || c == '?'

/-- Greedy URL-body backtracking: the longest end position at least 2
characters in whose last character is not excluded punctuation. -/
def tryUrlEnd (run : List Char) : Nat → Option Nat
  | 0 => none
  | 1 => none
  | k + 2 =>
    if isUrlPunct (run.getD (k + 1) ' ') then tryUrlEnd run (k + 1) else some (k + 2)

/-- One attempt of the URL pattern
`https?://[body]+[body minus punctuation]` at the current position. -/
def matchUrlAt (cs : List Char) : Option (List Char × List Char) :=
  let afterScheme : Option (List Char × List Char) :=
    if "https://".data.isPrefixOf cs then some ("https://".data, cs.drop 8)
    else if "http://".data.isPrefixOf cs then some ("http://".data, cs.drop 7)
    else none
  match afterScheme with
  | none => none
  | some (scheme, r1) =>
    let run := r1.takeWhile isUrlC
    let tail := r1.drop run.length
    match tryUrlEnd run run.length with
    | some k => some (scheme ++ run.take k, run.drop k ++ tail)
    | none => none

/-- `re.findall(url_pattern, s)` for the URL pattern of
`extract_contact_info` (this pattern has no leading `\b`). -/
def url_findall (s : String) : List String :=
  (reFindAux matchUrlAt false (s.data.length + 1) none s.data).map String.mk

/-! ## StructuredExtractor: `extract_contact_info` and
`extract_categories_from_chunks` from `src/api/app/core/rag.py` -/

/-- The `contact_info` dictionary. -/
structure ContactInfo where
  emails : List String
  phones : List String
  websites : List String
  addresses : List String
deriving DecidableEq, Repr

/-- Python `re.sub(r'[^\d]', '', p)`: keep only digits. -/
def digitsOnly (s : String) : String := String.mk (s.data.filter Char.isDigit)

/-- Python `s[a:b]` (character slicing). -/
def pySlice (s : String) (a b : Nat) : String := String.mk ((s.data.drop a).take (b - a))

/-- Python `s[a:]`. -/
def pyDropStr (s : String) (a : Nat) : String := String.mk (s.data.drop a)

/-- Python `s.endswith(pat)`. -/
def endsWithSub (s pat : String) : Bool := pat.data.isSuffixOf s.data

/-- Python `s.startswith(pat)`. -/
def startsWithSub (s pat : String) : Bool := pat.data.isPrefixOf s.data

namespace Api

/-- `f"({digits[:3]}) {digits[3:6]}-{digits[6:]}"`: the raw-scan phone
normalization of `extract_contact_info`. -/
def formatPhone (d : String) : String :=
  "(" ++ pySlice d 0 3 ++ ") " ++ pySlice d 3 6 ++ "-" ++ pyDropStr d 6

/-- The labeled-block pass of `extract_contact_info`: inside every chunk
containing `"CONTACT INFORMATION:"`, match the line-prefix labeled
sub-fields (the `elif` chain keeps only the first matching label per
line; an `Address:` line is only taken when it is not the chunk's last
line). -/
def labeledPass (chunks : List String) : ContactInfo :=
  chunks.foldl (fun info chunk =>
    if containsSub chunk "CONTACT INFORMATION:" then
      let lines := pySplitOn chunk "\n"
      (List.range lines.length).foldl (fun info i =>
        let line := lines.getD i ""
        if containsSub line "Email:" then
          { info with emails := info.emails ++ email_findall line }
        else if containsSub line "Phone:" then
          { info with phones := info.phones ++
              (phone_findall line).filter (fun p => (digitsOnly p).length == 10) }
        else if containsSub line "Website:" || containsSub line "URL:" then
          { info with websites := info.websites ++
              (url_findall line).filter (fun u => containsSub u "." && !endsWithSub u "..") }
        else if containsSub line "Address:" ∧ i + 1 < lines.length then
          let address := pyStrip (pyReplace line "Address:" "")
          if address ≠ "" then { info with addresses := info.addresses ++ [address] }
          else info
        else info) info
    else info) ⟨[], [], [], []⟩

/-- The phones one chunk contributes to the raw-text fallback scan:
every regex match reducing to exactly 10 digits, normalized to
`(NNN) NNN-NNNN`. -/
def rawPhonesOf (chunk : String) : List String :=
  (phone_findall chunk).filterMap (fun p =>
    let d := digitsOnly p
    if d.length = 10 then some (formatPhone d) else none)

/-- The websites one chunk contributes to the raw-text fallback scan. -/
def rawUrlsOf (chunk : String) : List String :=
  (url_findall chunk).filter (fun u =>
    !endsWithSub u ".." && containsSub u "." && decide (10 < u.length) &&
      !startsWithSub u "http://www..")

/-- The raw-text fallback pass of `extract_contact_info`: scan whole
chunks with the three regexes (no addresses are collected here). -/
def rawPass (chunks : List String) : ContactInfo :=
  ⟨(chunks.map email_findall).flatten,
   (chunks.map rawPhonesOf).flatten,
   (chunks.map rawUrlsOf).flatten,
   []⟩

/-- Python `any(contact_info.values())`. -/
def anyValues (info : ContactInfo) : Bool :=
  !(info.emails.isEmpty && info.phones.isEmpty && info.websites.isEmpty &&
    info.addresses.isEmpty)

/-- The final dedup-and-cap step of `extract_contact_info`: drop empty or
whitespace-only items, deduplicate, keep at most 3 per field. -/
def postProcess (info : ContactInfo) : ContactInfo :=
  let clean := fun l : List String =>
    (dedupFirst (l.filter (fun s => decide (s ≠ "") && decide (pyStrip s ≠ "")))).take 3
  ⟨clean info.emails, clean info.phones, clean info.websites, clean info.addresses⟩

/-- `extract_contact_info` from `src/api/app/core/rag.py`: the labeled
pass, falling back to the raw-text scan when it produced no values at
all, then deduplication and capping. -/
def extract_contact_info (chunks : List String) : ContactInfo :=
  postProcess
    (if anyValues (labeledPass chunks) then labeledPass chunks else rawPass chunks)

/-- `extract_categories_from_chunks` from `src/api/app/core/rag.py`. -/
def extract_categories_from_chunks (chunks : List String) : List String :=
  dedupFirst ((chunks.map (fun chunk =>
    if containsSub chunk "CATEGORIES:" then
      (((pySplitOn chunk "\n").filter (fun line => containsSub line "CATEGORIES:")).map
        (fun line =>
          (pySplitOn (pyStrip (pyReplace line "CATEGORIES:" "")) ",").map pyStrip)).flatten
    else [])).flatten)

end Api

/-! ## StreamingTranscoder: `generate_streaming_response` from
`src/api/app/routers/chat.py`

The generator first obtains the complete synthesized answer (the same
`generate_single_prompt_response` call the non-streaming path makes; its
result is the parameter `t` below), then re-emits it piecewise: `\n\n`
between sections, `\n` between lines, `• ` ahead of a bullet line's words,
and the line's words separated by single spaces.  The `asyncio.sleep`
pacing calls and the unused `is_header` flag affect timing only, not the
emitted content, and are not modelled.  `stream_chat_response` wraps every
yielded piece in one `chunk` SSE frame, so the pieces below are exactly
the chunk frame contents. -/

/-- Join piece groups, inserting the piece `sep` between adjacent groups
(the separator yields of the streaming generator). -/
def sepJoinChunks (sep : List Char) : List (List (List Char)) → List (List Char)
  | [] => []
  | g :: gs => g ++ (gs.map (fun h => [sep] ++ h)).flatten

/-- Words emitted as pieces with a single-space piece between adjacent
words (`yield word` / `yield ' '`). -/
def interspaceWords (ws : List (List Char)) : List (List Char) :=
  sepJoinChunks [' '] (ws.map (fun v => [v]))

/-- The pieces the generator yields for one line of a section: nothing for
a whitespace-only line, `• ` then the interspaced words of the stripped
tail for a bullet line, the interspaced words otherwise. -/
def lineChunksL (line : List Char) : List (List Char) :=
  let stripped := trimL line
  if stripped.isEmpty then []
  else if stripped.head? = some '•' then
    ['•', ' '] :: interspaceWords (pyWordsAux (trimL (stripped.drop 1)) [])
  else interspaceWords (pyWordsAux line [])

/-- All pieces `generate_streaming_response` yields for the full response
`cs`: sections split on `\n\n`, lines split on `\n`. -/
def streamChunksL (cs : List Char) : List (List Char) :=
  sepJoinChunks ['\n', '\n']
    ((splitSub ['\n', '\n'] cs).map
      (fun sec => sepJoinChunks ['\n'] ((splitSub ['\n'] sec).map lineChunksL)))

/-- The chunk-frame contents emitted for the synthesized response `t`. -/
def generate_streaming_response_chunks (t : String) : List String :=
  (streamChunksL t.data).map String.mk

/-- Concatenation with a separator list between adjacent elements
(`String.intercalate` at the character level). -/
def joinWith (sep : List Char) : List (List Char) → List Char
  | [] => []
  | g :: gs => g ++ (gs.map (fun h => sep ++ h)).flatten

/-- Whitespace collapsing of one line, following the spec's words: the
line's whitespace-separated tokens joined by single spaces, a leading
bullet marker kept as an atomic first token (`• `), a blank line
collapsed to nothing. -/
def collapseLineL (line : List Char) : List Char :=
  let stripped := trimL line
  if stripped.isEmpty then []
  else if stripped.head? = some '•' then
    '•' :: ' ' :: joinWith [' '] (pyWordsAux (trimL (stripped.drop 1)) [])
  else joinWith [' '] (pyWordsAux line [])

/-- Whitespace collapsing of a whole response, following the spec's words:
section structure (`\n\n`) and line structure (`\n`) are preserved, and
each line's inter-token spacing is collapsed. -/
def wsCollapseL (cs : List Char) : List Char :=
  joinWith ['\n', '\n']
    ((splitSub ['\n', '\n'] cs).map
      (fun sec => joinWith ['\n'] ((splitSub ['\n'] sec).map collapseLineL)))

/-- Whitespace collapsing at the `String` level. -/
def wsCollapse (t : String) : String := String.mk (wsCollapseL t.data)

/-! ## AnswerSynthesizer: text cleaning, provider extraction, description
scoring from `src/api/app/core/rag.py` -/

/-- `re.sub` global-substitution driver: scan from the left, replace each
non-overlapping match by `repl` (all patterns used match at least one
character). -/
def reSubAux (attempt : List Char → Option (List Char × List Char)) (repl : List Char) :
    Nat → List Char → List Char
  | 0, cs => cs
  | fuel + 1, cs =>
    match cs with
    | [] => []
    | c :: rest =>
      match attempt cs with
      | some (_, r) => repl ++ reSubAux attempt repl fuel r
      | none => c :: reSubAux attempt repl fuel rest

/-- One attempt of `www\.\.\s*`. -/
def matchWwwDotsAt (cs : List Char) : Option (List Char × List Char) :=
  if "www..".data.isPrefixOf cs then
    let r1 := cs.drop 5
    let ws := r1.takeWhile Char.isWhitespace
    some ("www..".data ++ ws, r1.drop ws.length)
  else none

/-- An uppercase-hex character `[0-9A-F]`. -/
def isHexUp (c : Char) : Bool := c.isDigit || ('A' ≤ c && c ≤ 'F')

/-- Does the list contain `%` followed by two `[0-9A-F]` characters? -/
def hasPercentHex : List Char → Bool
  | '%' :: a :: b :: rest => (isHexUp a && isHexUp b) || hasPercentHex (a :: b :: rest)
  | _ :: rest => hasPercentHex rest
  | [] => false

/-- One attempt of `https?://[^\s]*%[0-9A-F]{2}[^\s]*`: the scheme followed
by a non-whitespace run containing a `%HH` fragment; the greedy trailing
`[^\s]*` extends the match to the end of the run. -/
def matchEncodedUrlAt (cs : List Char) : Option (List Char × List Char) :=
  let afterScheme : Option (List Char × List Char) :=
    if "https://".data.isPrefixOf cs then some ("https://".data, cs.drop 8)
    else if "http://".data.isPrefixOf cs then some ("http://".data, cs.drop 7)
    else none
  match afterScheme with
  | none => none
  | some (scheme, r1) =>
    let run := r1.takeWhile (fun c => !c.isWhitespace)
    if hasPercentHex run then some (scheme ++ run, r1.drop run.length)
    else none

/-- One attempt of `-?\d+\.\.\s*\d+` (broken coordinate fragments). -/
def matchCoordAt (cs : List Char) : Option (List Char × List Char) :=
  let body : List Char → Option (List Char × List Char) := fun bs =>
    let d1 := bs.takeWhile Char.isDigit
    if d1.isEmpty then none
    else
      let r1 := bs.drop d1.length
      if "..".data.isPrefixOf r1 then
        let r2 := r1.drop 2
        let ws := r2.takeWhile Char.isWhitespace
        let r3 := r2.drop ws.length
        let d2 := r3.takeWhile Char.isDigit
        if d2.isEmpty then none
        else some (((d1 ++ '.' :: '.' :: ws) ++ d2), r3.drop d2.length)
      else none
  match cs with
  | '-' :: rest =>
    match body rest with
    | some (m, r) => some ('-' :: m, r)
    | none => none
  | _ => body cs

/-- One attempt of `\.{3,}` (runs of three or more dots). -/
def matchDotsAt (cs : List Char) : Option (List Char × List Char) :=
  let run := cs.takeWhile (fun c => c == '.')
  if 3 ≤ run.length then some (run, cs.drop run.length) else none

/-- One attempt of `\s{2,}` (runs of two or more whitespace characters). -/
def matchWs2At (cs : List Char) : Option (List Char × List Char) :=
  let run := cs.takeWhile Char.isWhitespace
  if 2 ≤ run.length then some (run, cs.drop run.length) else none

/-- `re.sub(pattern, repl, s)` at the `String` level. -/
def pySub (attempt : List Char → Option (List Char × List Char)) (repl s : String) : String :=
  String.mk (reSubAux attempt repl.data (s.data.length + 1) s.data)

namespace Api

/-- The substring indicators of `is_malformed_line`. -/
def malformedIndicators : List String :=
  ["%22", "%2", "field_specialty_ids", "geo_location=", "network_id=", "locale=en_us",
   "..67709152046795", ",-117..", "ci=wa-medicaid", "radius%22:%22", "sort%22:%22score"]

/-- `is_malformed_line` from `src/api/app/core/rag.py`.  The 30%
encoded-character density check `count / len > 0.3` is modelled exactly
as `10 * count > 3 * len`. -/
def is_malformed_line (line : String) : Bool :=
  if malformedIndicators.any (fun ind => containsSub line ind) then true
  else
    let encoded := (line.data.filter (fun c => c == '%' || c == '=' || c == '&' || c == '?')).length
    if 0 < line.length ∧ 3 * line.length < 10 * encoded then true
    else if containsSub line ".." ∧ 2 < countSub line ".." then true
    else false

/-- `clean_text_content` from `src/api/app/core/rag.py`: unescape two
URL-encoded characters, strip broken-URL and coordinate fragments,
collapse dot and whitespace runs, then drop short or malformed lines. -/
def clean_text_content (text : String) : String :=
  if text = "" then ""
  else
    let t1 := pyReplace (pyReplace text "%22" "\"") "%20" " "
    let t2 := pySub matchWwwDotsAt "www." t1
    let t3 := pySub matchEncodedUrlAt "" t2
    let t4 := pySub matchCoordAt "" t3
    let t5 := pySub matchDotsAt "..." t4
    let t6 := pySub matchWs2At " " t5
    let cleanLines := ((pySplitOn t6 "\n").map pyStrip).filter (fun line =>
      decide (10 < line.length) && !is_malformed_line line &&
        !startsWithSub line "t%22:" && !startsWithSub line "field_")
    pyStrip (String.intercalate "\n" cleanLines)

/-- Readability score of one candidate description in
`get_best_description` (floats `0.1` / `0.5` modelled exactly as
`1/10` / `1/2`). -/
def descScore (desc : String) : ℚ :=
  (desc.length : ℚ) * (1 / 10)
  + (if containsSub desc ". " then 20 else 0)
  + (((pyWords desc).filter
      (fun w => w.data.all Char.isAlpha && decide (2 < w.length))).length : ℚ) * (1 / 2)
  - (if containsSub desc "%" || containsSub desc "&" then 30 else 0)
  - (if 2 < countSub desc "http" ∨ 3 < countSub desc "www" then 20 else 0)

/-- `get_best_description`: the highest-scoring description, first wins on
ties (Python's stable `sort(reverse=True)` followed by `[0]`). -/
def get_best_description (descriptions : List String) : String :=
  match descriptions with
  | [] => ""
  | d :: ds => ds.foldl (fun best x => if descScore best < descScore x then x else best) d

end Api

/-- The bullet-item class `[^●\n]` of the provider pattern. -/
def isNB (c : Char) : Bool := !(c == '●' || c == '\n')

/-- Match `,\s*(?:MD|NP|DO|PA|RN)` (the credential part of the provider
pattern).  The greedy `\s*` needs no backtracking because no credential
letter is whitespace. -/
def tryCredAt (cs : List Char) : Option (List Char × List Char) :=
  match cs with
  | ',' :: r1 =>
    let ws := r1.takeWhile Char.isWhitespace
    let r2 := r1.drop ws.length
    let cred :=
      if "MD".data.isPrefixOf r2 then some "MD".data
      else if "NP".data.isPrefixOf r2 then some "NP".data
      else if "DO".data.isPrefixOf r2 then some "DO".data
      else if "PA".data.isPrefixOf r2 then some "PA".data
      else if "RN".data.isPrefixOf r2 then some "RN".data
      else none
    match cred with
    | some cr => some ((',' :: ws) ++ cr, r2.drop 2)
    | none => none
  | _ => none

/-- The lazy `[^●\n]+?` of the provider pattern: extend the name one
character at a time, trying the credential after each extension, then
consume the greedy `[^●\n]*` trailer.  Returns the captured group and the
rest of the input. -/
def tryLazyName : Nat → List Char → List Char → Option (List Char × List Char)
  | 0, _, _ => none
  | fuel + 1, accRev, rest =>
    match rest with
    | [] => none
    | c :: rest' =>
      if isNB c then
        match tryCredAt rest' with
        | some (credm, r2) =>
          let crun := r2.takeWhile isNB
          some (((c :: accRev).reverse ++ credm) ++ crun, r2.drop crun.length)
        | none => tryLazyName fuel (c :: accRev) rest'
      else none

/-- The greedy `\s*` after the bullet, with backtracking: try consuming
`w` whitespace characters from the run, longest first. -/
def tryBulletWs (wsrun tailAfter : List Char) : Nat → Option (List Char × List Char)
  | 0 =>
    tryLazyName (wsrun.length + tailAfter.length + 1) [] (wsrun ++ tailAfter)
  | w + 1 =>
    match tryLazyName ((wsrun.drop (w + 1)).length + tailAfter.length + 1) []
        (wsrun.drop (w + 1) ++ tailAfter) with
    | some res => some res
    | none => tryBulletWs wsrun tailAfter w

/-- One attempt of `●\s*([^●\n]+?(?:,\s*(?:MD|NP|DO|PA|RN))[^●\n]*)` at
the current position; yields the captured group (Python `re.findall`
returns the group for a one-group pattern). -/
def matchProviderAt (cs : List Char) : Option (List Char × List Char) :=
  match cs with
  | '●' :: r1 =>
    let wsrun := r1.takeWhile Char.isWhitespace
    let tailAfter := r1.drop wsrun.length
    tryBulletWs wsrun tailAfter wsrun.length
  | _ => none

/-- `re.findall(provider_pattern, s)` for the bullet-provider pattern of
`generate_single_prompt_response`. -/
def provider_findall (s : String) : List String :=
  (reFindAux matchProviderAt false (s.data.length + 1) none s.data).map String.mk

/-! ## AnswerSynthesizer: `simulate_llm_response`, the question-keyword
checks, `generate_single_prompt_response` and `generate_answer` from
`src/api/app/core/rag.py` -/

namespace Api

/-- The greeting reply of `simulate_llm_response` (verbatim, including
the source's trailing spaces). -/
def greetingText : String :=
  "Hi there! I'm Clara, and I'm here to help you find local resources and services. \n\nI can help you locate:\n• Housing assistance and shelters\n• Food banks and meal programs  \n• Healthcare services\n• Job training and employment help\n• Financial assistance programs\n• Mental health and counseling services\n• And many other community resources\n\nWhat kind of support are you looking for today?"

/-- The capabilities reply of `simulate_llm_response` (verbatim). -/
def capabilityText : String :=
  "I'm here to help connect you with local aid services and community resources! \n\nI have access to information about various organizations and programs that provide:\n\n• **Housing**: Emergency shelters, transitional housing, rental assistance\n• **Food**: Food banks, soup kitchens, meal delivery programs\n• **Healthcare**: Community health centers, free clinics, mental health services\n• **Employment**: Job training, career counseling, placement services\n• **Financial Help**: Utility assistance, emergency funds, benefits enrollment\n• **Family Services**: Childcare, elder care, family counseling\n\nJust tell me what kind of help you're looking for, and I'll find the best resources in your area. Is there something specific you need assistance with?"

/-- The urgent no-results reply of `simulate_llm_response` (verbatim). -/
def urgentNoInfoText : String :=
  "I understand this is urgent, and I want to help you right away. Unfortunately, I wasn't able to find specific information that matches your request in our current database.\n\n**For immediate emergencies:**\n• Call 911 if this is a life-threatening situation\n• Call 211 for general crisis support and resource referrals\n• Visit your local emergency room if you need immediate medical care\n\nIf you can provide more details about what type of assistance you need (housing, food, healthcare, etc.), I might be able to find other relevant resources for you."

/-- The plain no-results reply of `simulate_llm_response` (verbatim). -/
def noInfoText : String :=
  "I wasn't able to find specific information that matches your question in our current resource database. This could mean:\n\n• The information might not be in our system yet\n• You might try rephrasing with different keywords\n• The service might not be available in this area\n\nSome things you can try:\n• Be more specific about the type of help you need\n• Ask about related services (like \"food assistance\" instead of \"groceries\")\n• Try asking about a broader category first\n\nI'm here to help connect you with resources, so don't hesitate to ask about other topics or rephrase your question!"

/-- The greeting-keyword check of `simulate_llm_response` (substring
containment against the lowercased, stripped question; note `'hi'`
matches inside any word containing it). -/
def isGreetingQ (q : String) : Bool :=
  ["hello", "hi", "hey", "good morning", "good afternoon"].any
    (fun g => containsSub (pyStrip (pyLower q)) g)

/-- The capability-question check of `simulate_llm_response`. -/
def isCapabilityQ (q : String) : Bool :=
  ["what can you do", "what do you do", "how can you help"].any
    (fun g => containsSub (pyStrip (pyLower q)) g)

/-- The four-keyword urgency check of `simulate_llm_response` (used for
the intro and the empty-context branch). -/
def isUrgentQ (q : String) : Bool :=
  ["emergency", "urgent", "crisis", "immediate"].any
    (fun u => containsSub (pyStrip (pyLower q)) u)

/-- The three-keyword urgency check used for the next-steps section
(without `'immediate'`). -/
def isUrgent3Q (q : String) : Bool :=
  ["emergency", "urgent", "crisis"].any (fun u => containsSub (pyStrip (pyLower q)) u)

/-- The help-seeking keyword check of `simulate_llm_response`. -/
def isHelpQ (q : String) : Bool :=
  ["help", "need", "can you", "looking for"].any
    (fun w => containsSub (pyStrip (pyLower q)) w)

/-- `simulate_llm_response` from `src/api/app/core/rag.py`: the
deterministic template fallback used when the Ollama chat call fails. -/
def simulate_llm_response (question : String) (context_chunks : List String)
    (categories : List String) (contact_info : ContactInfo) (providers : List String)
    (descriptions : List String) : String :=
  if isGreetingQ question then greetingText
  else if isCapabilityQ question then capabilityText
  else if context_chunks.isEmpty then
    if isUrgentQ question then urgentNoInfoText else noInfoText
  else
    let catsLower := pyLower (String.intercalate ", " categories)
    let intro :=
      if isUrgentQ question then
        if categories ≠ [] then
          "I understand this is urgent. Let me get you the " ++ catsLower ++
            " resources you need right away."
        else
          "I understand this is urgent. Here are the resources I found for your immediate needs."
      else if isHelpQ question then
        if categories ≠ [] then
          "I'd be happy to help you find " ++ catsLower ++
            " services! Here are some options that might work for your situation."
        else
          "I'd be happy to help! Here are some resources that should be useful for your situation."
      else
        if categories ≠ [] then
          "Great question! I found several " ++ catsLower ++ " resources for you."
        else "Here's what I found that should help with your request."
    let catParts :=
      if categories ≠ [] then
        (if categories.length = 1 then
          ["**Service Category:** " ++ categories.headD ""]
        else ["**Related Categories:** " ++ String.intercalate ", " categories]) ++ [""]
      else []
    let provParts :=
      if providers ≠ [] then
        (if providers.length = 1 then ["**Available Provider:**"]
         else ["**Available Providers (" ++ toString providers.length ++ " found):**"]) ++
        (providers.take 5).map (fun p => "• " ++ p) ++
        (if 5 < providers.length then
          ["• ...and " ++ toString (providers.length - 5) ++ " more providers"]
        else []) ++ [""]
      else []
    let descParts :=
      if descriptions ≠ [] then
        let best := get_best_description descriptions
        let shown :=
          if 300 < best.length then
            let bp := pyFind best ". " 200
            if 0 < bp then pyTake best (bp.toNat + 1) else pyTake best 300 ++ "..."
          else best
        ["**About These Services:**", shown, ""]
      else []
    let contactParts :=
      if anyValues contact_info then
        ["**How to Get Started:**"] ++
        (contact_info.phones.take 3).map (fun p => "• Call: " ++ p) ++
        (contact_info.emails.take 3).map (fun e => "• Email: " ++ e) ++
        (contact_info.websites.take 3).map (fun w => "• Visit: " ++ w) ++
        (if contact_info.addresses ≠ [] then
          ["• Location: " ++ contact_info.addresses.headD ""]
        else []) ++ [""]
      else []
    let nextSteps :=
      ["**Next Steps:**"] ++
      (if contact_info.phones ≠ [] then
        if isUrgent3Q question then
          ["• Call the phone number above right away - they should be able to help you immediately"]
        else
          ["• Give them a call - speaking directly with someone is often the quickest way to get started"]
      else if contact_info.emails ≠ [] then
        ["• Send them an email with your specific questions - most organizations respond within 24-48 hours"]
      else if contact_info.websites ≠ [] then
        ["• Check out their website for detailed information and applications"]
      else []) ++
      (if 1 < providers.length then
        ["• Don't hesitate to reach out to multiple providers - they may have different eligibility requirements"]
      else []) ++
      ["• Remember, these organizations are here to help - don't hesitate to ask questions about their services"] ++
      (if isUrgent3Q question then
        ["• If this is a life-threatening emergency, please call 911 immediately"]
      else [])
    String.intercalate "\n"
      (([intro, ""] ++ catParts ++ provParts ++ descParts ++ contactParts) ++ nextSteps)

/-- Append an item when it is nonempty and not yet present
(`if provider and provider not in providers: providers.append(provider)`). -/
def pushUnique (l : List String) (x : String) : List String :=
  if x ≠ "" ∧ x ∉ l then l ++ [x] else l

/-- The provider extraction of `generate_single_prompt_response`:
bullet-credential matches, then the labeled `PROVIDER:` field (text after
the first occurrence, first line, stripped), per chunk. -/
def extractProviders (chunks : List String) : List String :=
  chunks.foldl (fun provs chunk =>
    let provs1 := (provider_findall chunk).foldl (fun l m => pushUnique l (pyStrip m)) provs
    if containsSub chunk "PROVIDER:" then
      pushUnique provs1
        (pyStrip ((pySplitOn ((pySplitOn chunk "PROVIDER:").getD 1 "") "\n").headD ""))
    else provs1) []

/-- The description extraction of `generate_single_prompt_response`: the
stripped text after the first `DESCRIPTION:` occurrence, cleaned, kept
when nonempty. -/
def extractDescriptions (chunks : List String) : List String :=
  chunks.foldl (fun descs chunk =>
    if containsSub chunk "DESCRIPTION:" then
      let cleaned := clean_text_content (pyStrip ((pySplitOn chunk "DESCRIPTION:").getD 1 ""))
      if cleaned ≠ "" then descs ++ [cleaned] else descs
    else descs) []

/-- `generate_single_prompt_response` from `src/api/app/core/rag.py`.
`llm` is the outcome of the Ollama chat call (`some reply` = the
external model's text, `none` = the call raised): on failure the
function falls back to `simulate_llm_response` with the extracted
structured data. -/
def generate_single_prompt_response (llm : Option String) (question : String)
    (context_chunks : List String) : String :=
  match llm with
  | some reply => reply
  | none =>
    simulate_llm_response question context_chunks
      (extract_categories_from_chunks context_chunks)
      (extract_contact_info context_chunks)
      (extractProviders context_chunks)
      (extractDescriptions context_chunks)

/-- The dictionary `generate_answer` returns.  `contact_info = none`
models the literal empty dict `{}` of the empty-passages guard
(distinct from a `ContactInfo` whose four lists are empty). -/
structure GeneratedAnswer where
  answer : String
  sources : List String
  contact_info : Option ContactInfo
  categories : List String
  providers : List String
deriving Repr

/-- `generate_answer` from `src/api/app/core/rag.py`: the synthesized
answer text plus the structured fields re-extracted for the API
response (providers here come only from the labeled `PROVIDER:` field). -/
def generate_answer (llm : Option String) (question : String)
    (context_chunks : List String) : GeneratedAnswer :=
  let answer_text := generate_single_prompt_response llm question context_chunks
  let chunk_categories :=
    if context_chunks.isEmpty then [] else extract_categories_from_chunks context_chunks
  let contact_info :=
    if context_chunks.isEmpty then none else some (extract_contact_info context_chunks)
  let providers :=
    if context_chunks.isEmpty then []
    else
      context_chunks.foldl (fun provs chunk =>
        if containsSub chunk "PROVIDER:" then
          pushUnique provs
            (pyStrip ((pySplitOn ((pySplitOn chunk "PROVIDER:").getD 1 "") "\n").headD ""))
        else provs) []
  ⟨answer_text, context_chunks, contact_info, chunk_categories, providers⟩

end Api

/-! ## Concrete witness inputs -/

/-- A 41-word document with no sentence punctuation: forces the word-window
fallback of `chunk_text`. -/
def w41 : String := String.intercalate " " (List.replicate 41 "w")

/-- A document with sentence punctuation whose sentence-based chunking
succeeds (no fallback) and produces several chunks. -/
def sentDoc : String :=
  "one two three. four five six. seven eight nine ten eleven twelve thirteen. a b c d e f g h i j k l. m n o p q r s t u v w x"

/-- A two-tenant store. -/
def storeW : List Row := [⟨"1", "A", "apple", [1]⟩, ⟨"2", "B", "banana", [0]⟩]

/-- The spec's contact-extraction scenario passage. -/
def c3Chunk : String := "CONTACT INFORMATION:\nPhone: 555-123-4567\n"

/-- A passage with a labeled contact block that yields no extractable
sub-field values. -/
def c8ChunkLabeled : String := "CONTACT INFORMATION:\nPhone: n/a"

/-- A passage with a raw (unlabeled) phone number. -/
def c8ChunkRaw : String := "call 555-123-4567 now"

/-- A passage whose labeled contact block yields an email. -/
def c8ChunkEmail : String := "CONTACT INFORMATION:\nEmail: a@b.com"

/-! # Theorems -/

/-! ## Helper lemmas -/

theorem mem_insertAsc {key : Row → ℚ} {r a : Row} {l : List Row} :
    a ∈ insertAsc key r l → a = r ∨ a ∈ l := by
  induction l with
  | nil => simp [insertAsc]
  | cons x xs ih =>
    simp only [insertAsc]
    split
    · intro h
      rcases List.mem_cons.mp h with h | h
      · exact Or.inr (h ▸ List.mem_cons_self x xs)
      · rcases ih h with h | h
        · exact Or.inl h
        · exact Or.inr (List.mem_cons_of_mem x h)
    · intro h
      rcases List.mem_cons.mp h with h | h
      · exact Or.inl h
      · exact Or.inr h

theorem mem_sortAsc {key : Row → ℚ} {a : Row} {l : List Row} :
    a ∈ sortAsc key l → a ∈ l := by
  induction l with
  | nil => simp [sortAsc]
  | cons x xs ih =>
    intro h
    rcases mem_insertAsc h with h | h
    · exact h ▸ List.mem_cons_self x xs
    · exact List.mem_cons_of_mem x (ih h)

theorem mem_vector_query {dist : List ℚ → List ℚ → ℚ} {store : List Row} {tenant : String}
    {emb : List ℚ} {k : Nat} {r : Row} (h : r ∈ vector_query dist store tenant emb k) :
    r ∈ store ∧ r.tenant_id = tenant := by
  have h1 : r ∈ sortAsc (fun r => dist r.embedding emb)
      (store.filter (fun r => r.tenant_id == tenant)) := List.mem_of_mem_take h
  have h2 := mem_sortAsc h1
  have h3 := List.mem_filter.mp h2
  exact ⟨h3.1, by simpa using h3.2⟩

theorem mem_map_content {rows : List Row} {c : String}
    (h : c ∈ rows.map (fun r => r.content)) : ∃ r ∈ rows, r.content = c := by
  rcases List.mem_map.mp h with ⟨r, hr, hc⟩
  exact ⟨r, hr, hc⟩

theorem provenance_of_query {dist : List ℚ → List ℚ → ℚ} {store : List Row} {tenant : String}
    {emb : List ℚ} {k : Nat} {c : String}
    (h : c ∈ (vector_query dist store tenant emb k).map (fun r => r.content)) :
    ∃ r ∈ store, r.tenant_id = tenant ∧ r.content = c := by
  rcases mem_map_content h with ⟨r, hr, hc⟩
  rcases mem_vector_query hr with ⟨hs, ht⟩
  exact ⟨r, hs, ht, hc⟩

theorem mem_dedupFirstAux {seen : List String} {l : List String} {x : String} :
    x ∈ dedupFirstAux seen l → x ∈ l := by
  induction l generalizing seen with
  | nil => simp [dedupFirstAux]
  | cons y ys ih =>
    simp only [dedupFirstAux]
    split
    · intro h
      exact List.mem_cons_of_mem y (ih h)
    · intro h
      rcases List.mem_cons.mp h with h | h
      · exact h ▸ List.mem_cons_self y ys
      · exact List.mem_cons_of_mem y (ih h)

theorem mem_dedupFirst {l : List String} {x : String} (h : x ∈ dedupFirst l) : x ∈ l :=
  mem_dedupFirstAux h

theorem mem_preChunks {normCat : String → Option (String × ℚ)} {embed : String → List ℚ}
    {dist : List ℚ → List ℚ → ℚ} {store : List Row} {query tenant : String} {top_k : Nat}
    {c : String} (h : c ∈ App.preChunks normCat embed dist store query tenant top_k) :
    ∃ r ∈ store, r.tenant_id = tenant ∧ r.content = c := by
  simp only [App.preChunks] at h
  split at h
  · split at h
    · have h' := List.mem_of_mem_take h
      rcases List.mem_append.mp h' with h'' | h''
      · exact provenance_of_query h''
      · have h3 := List.mem_filter.mp (mem_dedupFirst h'')
        rcases List.mem_flatten.mp h3.1 with ⟨l, hl, hcl⟩
        rcases List.mem_map.mp hl with ⟨cq, _, hcq⟩
        exact provenance_of_query (hcq ▸ hcl)
    · exact provenance_of_query h
  · exact provenance_of_query h

/-! ## C1: tenant isolation -/

/-- C1: tenant isolation.  Every passage content returned by either
retrieval implementation (`retrieve_relevant_chunks` in
`src/api/app/core/rag.py` and in `src/app/rag.py`) is the content of a
row stored under the calling tenant's `tenant_id`; rows of other tenants
never appear, for every store, query, distance metric, embedding
backend outcome and database outcome. -/
theorem tenant_isolation :
    (∀ (dist : List ℚ → List ℚ → ℚ) (embedRes : Except String (List ℚ))
        (dbErr : Option String) (store : List Row) (tenant : String) (top_k : Nat)
        (cs : List String),
        Api.retrieve_relevant_chunks dist embedRes dbErr store tenant top_k = .ok cs →
        ∀ c ∈ cs, ∃ r ∈ store, r.tenant_id = tenant ∧ r.content = c) ∧
    (∀ (normCat : String → Option (String × ℚ)) (embed : String → List ℚ)
        (dist : List ℚ → List ℚ → ℚ) (store : List Row) (query tenant : String)
        (top_k : Nat) (dbErr : Option String) (cs : List String),
        App.retrieve_relevant_chunks normCat embed dist store query tenant top_k dbErr = .ok cs →
        ∀ c ∈ cs, ∃ r ∈ store, r.tenant_id = tenant ∧ r.content = c) := by
  constructor
  · intro dist embedRes dbErr store tenant top_k cs hok c hc
    unfold Api.retrieve_relevant_chunks at hok
    match embedRes with
    | .error e => cases hok; cases hc
    | .ok emb =>
      match dbErr with
      | some _ => cases hok; cases hc
      | none =>
        cases hok
        exact provenance_of_query hc
  · intro normCat embed dist store query tenant top_k dbErr cs hok c hc
    unfold App.retrieve_relevant_chunks at hok
    match dbErr with
    | some _ => cases hok; cases hc
    | none =>
      simp only [] at hok
      split at hok
      · cases hok
        split at hc
        · exact provenance_of_query hc
        · exact mem_preChunks hc
      · cases hok
        exact mem_preChunks hc

/-- Witness for C1: on a concrete two-tenant store, the row backing the
returned chunk belongs to the querying tenant. -/
theorem tenant_isolation_witness :
    ∃ r ∈ storeW, r.tenant_id = "A" ∧ r.content = "apple" :=
  tenant_isolation.1 (fun _ _ => 0) (Except.ok [1]) none storeW "A" 4 ["apple"]
    rfl "apple" (by decide)

/-! ## C5: retrieval failure modes -/

/-- C5 counterexample: with a reachable embedding backend but a failing
database connection, `retrieve_relevant_chunks` (api) returns the ordinary
empty "no matches" result `ok []` instead of propagating a
retrieval-unavailable error — the blanket `except` swallows it. -/
theorem retrieval_db_failure_counterexample :
    Api.retrieve_relevant_chunks (fun _ _ => 0) (Except.ok [1])
      (some "connection refused") storeW "A" 4 = Except.ok [] := rfl

/-- C5 amended: during retrieval (api implementation), an embedding-backend
failure yields an empty result as claimed, but a VectorStore/database
failure is caught by the same blanket handler and also yields the ordinary
empty result; no retrieval failure is ever propagated to the caller. -/
theorem retrieval_failures_swallowed :
    ∀ (dist : List ℚ → List ℚ → ℚ) (store : List Row) (tenant : String) (top_k : Nat),
      (∀ (e : String) (dbErr : Option String),
        Api.retrieve_relevant_chunks dist (Except.error e) dbErr store tenant top_k =
          Except.ok []) ∧
      (∀ (emb : List ℚ) (msg : String),
        Api.retrieve_relevant_chunks dist (Except.ok emb) (some msg) store tenant top_k =
          Except.ok []) := by
  intro dist store tenant top_k
  exact ⟨fun e dbErr => rfl, fun emb msg => rfl⟩

/-! ## C9: fallback to the raw query -/

/-- C9: in `retrieve_relevant_chunks` (`src/app/rag.py`), whenever the
chunks retrieved so far hold fewer than 100 characters in total and the
enhanced query differs from the original, retrieval is re-run with the
unmodified original query's embedding and the function returns whichever
of the two chunk lists has the greater total character content (the
first list when tied). -/
theorem raw_query_fallback :
    ∀ (normCat : String → Option (String × ℚ)) (embed : String → List ℚ)
      (dist : List ℚ → List ℚ → ℚ) (store : List Row) (query tenant : String) (top_k : Nat),
      totalLen (App.preChunks normCat embed dist store query tenant top_k) < 100 →
      App.enhancedQuery normCat query ≠ query →
      ∃ cs, App.retrieve_relevant_chunks normCat embed dist store query tenant top_k none =
          Except.ok cs ∧
        (cs = App.preChunks normCat embed dist store query tenant top_k ∨
          cs = App.origChunks embed dist store query tenant top_k) ∧
        totalLen cs = max (totalLen (App.preChunks normCat embed dist store query tenant top_k))
          (totalLen (App.origChunks embed dist store query tenant top_k)) := by
  intro normCat embed dist store query tenant top_k hsparse hdiff
  have hdef : App.retrieve_relevant_chunks normCat embed dist store query tenant top_k none =
      if totalLen (App.preChunks normCat embed dist store query tenant top_k) < 100 ∧
          App.enhancedQuery normCat query ≠ query then
        Except.ok (if totalLen (App.preChunks normCat embed dist store query tenant top_k) <
            totalLen (App.origChunks embed dist store query tenant top_k) then
          App.origChunks embed dist store query tenant top_k
        else App.preChunks normCat embed dist store query tenant top_k)
      else Except.ok (App.preChunks normCat embed dist store query tenant top_k) := rfl
  rw [hdef, if_pos ⟨hsparse, hdiff⟩]
  by_cases hlt : totalLen (App.preChunks normCat embed dist store query tenant top_k) <
      totalLen (App.origChunks embed dist store query tenant top_k)
  · rw [if_pos hlt]
    exact ⟨_, rfl, Or.inr rfl, (Nat.max_eq_right (Nat.le_of_lt hlt)).symm⟩
  · rw [if_neg hlt]
    exact ⟨_, rfl, Or.inl rfl, (Nat.max_eq_left (Nat.le_of_not_lt hlt)).symm⟩

/-- Witness for C9 at a concrete instance: a short query with no category
match is rephrased ("Provider information for food"), differs from the
original, and the sparse-result fallback applies. -/
theorem raw_query_fallback_witness :
    ∃ cs, App.retrieve_relevant_chunks (fun _ => none) (fun _ => []) (fun _ _ => 0) [] "food"
        "A" 4 none = Except.ok cs ∧
      (cs = App.preChunks (fun _ => none) (fun _ => []) (fun _ _ => 0) [] "food" "A" 4 ∨
        cs = App.origChunks (fun _ => []) (fun _ _ => 0) [] "food" "A" 4) ∧
      totalLen cs = max (totalLen (App.preChunks (fun _ => none) (fun _ => []) (fun _ _ => 0) []
        "food" "A" 4)) (totalLen (App.origChunks (fun _ => []) (fun _ _ => 0) [] "food" "A" 4)) :=
  raw_query_fallback (fun _ => none) (fun _ => []) (fun _ _ => 0) [] "food" "A" 4
    (by decide) (by decide)

/-! ## C7: unit-norm embeddings -/

theorem sqNorm_normalizeWith (v : List ℚ) (n : ℚ) :
    sqNorm (normalizeWith n v) = sqNorm v / (n * n) := by
  induction v with
  | nil => simp [sqNorm, normalizeWith]
  | cons x xs ih =>
    simp only [sqNorm, normalizeWith, List.map_cons, List.sum_cons] at *
    rw [ih, div_mul_div_comm, div_add_div_same]

/-- C7: every embedding vector the EmbeddingService returns — the passage
vectors of `embed_chunks` / `embed_chunks_async` and the query vector of
`embed_query_async` — has L2 norm 1 (stated on the squared norm, in exact
arithmetic), provided the backend's raw vector is nonzero so that the
computed norm `n` (characterized by `n * n = sqNorm v`) is nonzero. -/
theorem embedding_vectors_unit_norm :
    (∀ (raw : List (List ℚ × ℚ)), (∀ p ∈ raw, p.2 * p.2 = sqNorm p.1 ∧ p.2 ≠ 0) →
      ∀ v ∈ embed_chunks_vectors raw, sqNorm v = 1) ∧
    (∀ (v : List ℚ) (n : ℚ), n * n = sqNorm v → n ≠ 0 →
      sqNorm (embed_query_vector v n) = 1) := by
  have key : ∀ (v : List ℚ) (n : ℚ), n * n = sqNorm v → n ≠ 0 →
      sqNorm (normalizeWith n v) = 1 := by
    intro v n hn hnz
    rw [sqNorm_normalizeWith, ← hn, div_self (mul_ne_zero hnz hnz)]
  constructor
  · intro raw hraw v hv
    rcases List.mem_map.mp hv with ⟨p, hp, hpv⟩
    rcases hraw p hp with ⟨hn, hnz⟩
    exact hpv ▸ key p.1 p.2 hn hnz
  · intro v n hn hnz
    exact key v n hn hnz

/-- Witness for C7: the raw vector `[3, 4]` with computed norm `5`
normalizes to a unit vector, on both the batch and the query paths. -/
theorem embedding_vectors_unit_norm_witness :
    sqNorm (embed_query_vector [3, 4] 5) = 1 ∧
    ∀ v ∈ embed_chunks_vectors [([3, 4], 5)], sqNorm v = 1 :=
  ⟨embedding_vectors_unit_norm.2 [3, 4] 5 (by norm_num [sqNorm]) (by norm_num),
   embedding_vectors_unit_norm.1 [([3, 4], 5)]
     (by intro p hp; rcases List.mem_singleton.mp hp with rfl
         exact ⟨by norm_num [sqNorm], by norm_num⟩)⟩

/-! ## C10: totality of chunking -/

/-- C10: `chunk_text` always returns a chunk list when `overlap_words` is
strictly below the (explicit or adaptively chosen) chunk size; but on the
word-based fallback path with `overlap_words` equal to the chunk size,
the sliding-window step is zero and Python's `range` raises `ValueError`
(modelled as `none`). -/
theorem chunk_text_totality :
    (∀ (text : String) (cso : Option Nat) (ov : Nat),
        ov < Api.effectiveChunkSize text cso → (Api.chunk_text text cso ov).isSome) ∧
    (∀ (text : String) (n : Nat), n < (pyWords text).length →
        Api.wordFallbackCond (Api.sentenceChunks text n n) n = true →
        Api.chunk_text text (some n) n = none) := by
  constructor
  · intro text cso ov h
    simp only [Api.chunk_text]
    split
    · rfl
    · split
      · rw [if_neg (Nat.not_le.mpr h)]
        rfl
      · rfl
  · intro text n hlen hfb
    unfold Api.chunk_text
    have h1 : ¬ ((pyWords text).length ≤ Api.effectiveChunkSize text (some n)) :=
      Nat.not_le.mpr hlen
    rw [if_neg h1]
    have h2 : Api.effectiveChunkSize text (some n) = n := rfl
    rw [h2, if_pos hfb, if_pos (Nat.le_refl n), if_pos rfl]

/-- Witness for C10: on a 41-word unpunctuated document with target size
20, overlap 10 yields a result, while overlap 20 (zero step) raises. -/
theorem chunk_text_totality_witness :
    (Api.chunk_text w41 (some 20) 10).isSome ∧ Api.chunk_text w41 (some 20) 20 = none :=
  ⟨chunk_text_totality.1 w41 (some 20) 10 (by decide),
   chunk_text_totality.2 w41 20 (by decide) (by decide)⟩

/-! ## C4: minimum chunk length -/

/-- C4 counterexample: chunking a 41-word document with no sentence
punctuation (target size 20, overlap 10) takes the word-window fallback,
which bypasses the 10-word noise filter: the result has 5 chunks (so it is
not the single whole-document chunk) and its last chunk is the single word
`"w"`. -/
theorem chunk_min_words_counterexample :
    ("w" ∈ (Api.chunk_text w41 (some 20) 10).getD []) ∧ wordCount "w" = 1 ∧
      ((Api.chunk_text w41 (some 20) 10).getD []).length = 5 := by
  refine ⟨?_, by decide, by decide⟩
  decide

/-- C4 amended: every chunk returned by the sentence-based path of
`chunk_text` (the case where the word-window fallback condition does not
fire and the text exceeds the chunk size) has at least 10 words; chunks
produced by the word-window fallback path may be shorter. -/
theorem chunk_min_words_amended :
    ∀ (text : String) (cso : Option Nat) (ov : Nat),
      Api.effectiveChunkSize text cso < (pyWords text).length →
      Api.wordFallbackCond (Api.sentenceChunks text (Api.effectiveChunkSize text cso) ov)
        (Api.effectiveChunkSize text cso) = false →
      ∀ c ∈ (Api.chunk_text text cso ov).getD [], 10 ≤ wordCount c := by
  intro text cso ov hlen hfb c hc
  unfold Api.chunk_text at hc
  rw [if_neg (Nat.not_le.mpr hlen), if_neg (by rw [hfb]; exact Bool.false_ne_true)] at hc
  simp only [Option.getD_some] at hc
  have := List.mem_filter.mp hc
  exact of_decide_eq_true this.2

set_option maxRecDepth 8192 in
/-- Witness for C4 (amended): a concrete sentence-chunked document whose
second output chunk has at least 10 words. -/
theorem chunk_min_words_amended_witness :
    10 ≤ wordCount "eleven twelve thirteen.. a b c d e f g h i j k l." :=
  chunk_min_words_amended sentDoc (some 12) 3 (by decide) (by decide)
    "eleven twelve thirteen.. a b c d e f g h i j k l." (by decide)

/-! ## C6: streaming fidelity -/

theorem flatten_sepmap (sep : List Char) (gs : List (List (List Char))) :
    ((gs.map (fun h => [sep] ++ h)).flatten).flatten =
      (gs.map (fun h => sep ++ h.flatten)).flatten := by
  induction gs with
  | nil => rfl
  | cons g gs ih =>
    simp only [List.singleton_append] at ih
    simp [List.flatten_append, List.append_assoc, ih]

theorem flatten_sepJoinChunks (sep : List Char) (gs : List (List (List Char))) :
    (sepJoinChunks sep gs).flatten = joinWith sep (gs.map List.flatten) := by
  cases gs with
  | nil => rfl
  | cons g gs =>
    simp only [sepJoinChunks, joinWith, List.map_cons, List.flatten_append, flatten_sepmap,
      List.map_map]
    rfl

theorem flatten_interspaceWords (ws : List (List Char)) :
    (interspaceWords ws).flatten = joinWith [' '] ws := by
  unfold interspaceWords
  rw [flatten_sepJoinChunks, List.map_map]
  have h : (List.flatten ∘ fun v : List Char => [v]) = id := by
    funext v
    simp
  rw [h, List.map_id]

theorem flatten_lineChunksL (line : List Char) :
    (lineChunksL line).flatten = collapseLineL line := by
  simp only [lineChunksL, collapseLineL]
  split
  · rfl
  · split
    · simp [List.flatten_cons, flatten_interspaceWords]
    · exact flatten_interspaceWords _

theorem flatten_streamChunksL (cs : List Char) :
    (streamChunksL cs).flatten = wsCollapseL cs := by
  unfold streamChunksL wsCollapseL
  rw [flatten_sepJoinChunks, List.map_map]
  apply congrArg (joinWith ['\n', '\n'])
  apply List.map_congr_left
  intro sec _
  show (sepJoinChunks ['\n'] ((splitSub ['\n'] sec).map lineChunksL)).flatten = _
  rw [flatten_sepJoinChunks, List.map_map]
  apply congrArg (joinWith ['\n'])
  apply List.map_congr_left
  intro line _
  exact flatten_lineChunksL line

theorem foldl_append_mk_data (gs : List (List Char)) :
    ∀ s : String, (List.foldl (fun r t => r ++ t) s (gs.map String.mk)).data =
      s.data ++ gs.flatten := by
  induction gs with
  | nil => intro s; simp
  | cons g gs ih =>
    intro s
    simp only [List.map_cons, List.foldl_cons, List.flatten_cons, ih]
    simp [String.data_append, List.append_assoc]

theorem join_map_mk_data (gs : List (List Char)) :
    (String.join (gs.map String.mk)).data = gs.flatten := by
  have := foldl_append_mk_data gs ""
  simpa [String.join] using this

theorem filter_flatten_char (p : Char → Bool) (ls : List (List Char)) :
    (ls.flatten).filter p = (ls.map (List.filter p)).flatten := by
  induction ls with
  | nil => rfl
  | cons l ls ih => simp [List.filter_append, ih]

theorem filter_joinWith (p : Char → Bool) (sep : List Char) (gs : List (List Char))
    (hsep : sep.filter p = []) :
    (joinWith sep gs).filter p = (gs.map (List.filter p)).flatten := by
  cases gs with
  | nil => rfl
  | cons g gs =>
    simp only [joinWith, List.filter_append, filter_flatten_char, List.map_map,
      List.flatten_cons]
    congr 1
    apply congrArg List.flatten
    apply List.map_congr_left
    intro h _
    show (sep ++ h).filter p = h.filter p
    simp [List.filter_append, hsep]

theorem pyWordsAux_flatten (cs : List Char) :
    ∀ acc, (pyWordsAux cs acc).flatten =
      acc.reverse ++ cs.filter (fun c => !c.isWhitespace) := by
  induction cs with
  | nil =>
    intro acc
    cases acc with
    | nil => rfl
    | cons a as => simp [pyWordsAux]
  | cons c cs ih =>
    intro acc
    by_cases hw : c.isWhitespace
    · cases acc with
      | nil => simp [pyWordsAux, hw, ih]
      | cons a as => simp [pyWordsAux, hw, ih]
    · have hstep : pyWordsAux (c :: cs) acc = pyWordsAux cs (c :: acc) := by
        simp [pyWordsAux, hw]
      rw [hstep, ih (c :: acc)]
      simp [hw, List.append_assoc]

theorem pyWordsAux_words_nonws (cs : List Char) :
    ∀ acc, (∀ a ∈ acc, a.isWhitespace = false) →
      ∀ w ∈ pyWordsAux cs acc, ∀ c ∈ w, c.isWhitespace = false := by
  induction cs with
  | nil =>
    intro acc hacc w hw
    cases acc with
    | nil => simp [pyWordsAux] at hw
    | cons a as =>
      simp only [pyWordsAux, List.isEmpty_cons, Bool.false_eq_true, if_false,
        List.mem_singleton] at hw
      subst hw
      intro c hc
      exact hacc c (List.mem_reverse.mp hc)
  | cons c cs ih =>
    intro acc hacc w hw
    by_cases hws : c.isWhitespace
    · cases acc with
      | nil =>
        simp only [pyWordsAux, hws, if_true, List.isEmpty_nil] at hw
        exact ih [] (by simp) w hw
      | cons a as =>
        simp only [pyWordsAux, hws, if_true, List.isEmpty_cons, Bool.false_eq_true, if_false,
          List.mem_cons] at hw
        rcases hw with hw | hw
        · subst hw
          intro b hb
          exact hacc b (List.mem_reverse.mp hb)
        · exact ih [] (by simp) w hw
    · have hstep : pyWordsAux (c :: cs) acc = pyWordsAux cs (c :: acc) := by
        simp [pyWordsAux, hws]
      rw [hstep] at hw
      refine ih (c :: acc) ?_ w hw
      intro a ha
      rcases List.mem_cons.mp ha with ha | ha
      · subst ha; simpa using hws
      · exact hacc a ha

theorem filter_joinWith_words (cs : List Char) :
    (joinWith [' '] (pyWordsAux cs [])).filter (fun c => !c.isWhitespace) =
      cs.filter (fun c => !c.isWhitespace) := by
  rw [filter_joinWith _ _ _ (by decide)]
  have hwords : ∀ w ∈ pyWordsAux cs [],
      (List.filter (fun c => !c.isWhitespace)) w = id w := by
    intro w hw
    apply List.filter_eq_self.mpr
    intro c hc
    simp [pyWordsAux_words_nonws cs [] (by simp) w hw c hc]
  rw [List.map_congr_left hwords, List.map_id]
  have := pyWordsAux_flatten cs []
  simpa using this

theorem filter_dropWhile_ws (cs : List Char) :
    (cs.dropWhile Char.isWhitespace).filter (fun c => !c.isWhitespace) =
      cs.filter (fun c => !c.isWhitespace) := by
  induction cs with
  | nil => rfl
  | cons c cs ih =>
    by_cases hw : c.isWhitespace
    · simp [List.dropWhile_cons, hw, ih]
    · simp [List.dropWhile_cons, hw]

theorem filter_trimL (cs : List Char) :
    (trimL cs).filter (fun c => !c.isWhitespace) = cs.filter (fun c => !c.isWhitespace) := by
  unfold trimL
  rw [List.filter_reverse, filter_dropWhile_ws, List.filter_reverse, List.reverse_reverse,
    filter_dropWhile_ws]

theorem filter_collapseLineL (line : List Char) :
    (collapseLineL line).filter (fun c => !c.isWhitespace) =
      line.filter (fun c => !c.isWhitespace) := by
  have hline : line.filter (fun c => !c.isWhitespace) =
      (trimL line).filter (fun c => !c.isWhitespace) := (filter_trimL line).symm
  simp only [collapseLineL]
  by_cases h1 : (trimL line).isEmpty
  · rw [if_pos h1, hline, List.isEmpty_iff.mp h1]
  · rw [if_neg h1]
    by_cases h2 : (trimL line).head? = some '•'
    · rw [if_pos h2]
      rcases hs : trimL line with _ | ⟨a, rest⟩
      · rw [hs] at h1
        exact absurd rfl h1
      · have ha : a = '•' := by
          rw [hs] at h2
          simpa using h2
        subst ha
        rw [hline, hs]
        show ('•' :: ' ' :: joinWith [' ']
            (pyWordsAux (trimL (List.drop 1 ('•' :: rest))) [])).filter _ = _
        simp only [List.drop_succ_cons, List.drop_zero, List.filter_cons]
        have h3 : (!('•' : Char).isWhitespace) = true := by decide
        have h4 : (!(' ' : Char).isWhitespace) = false := by decide
        rw [h3, h4]
        simp only [if_true, if_false, Bool.false_eq_true]
        rw [filter_joinWith_words, filter_trimL]
    · rw [if_neg h2]
      exact filter_joinWith_words line

theorem splitSubAux_ne_nil (pat : List Char) (f : Nat) (cs : List Char) :
    splitSubAux pat f cs ≠ [] := by
  cases f with
  | zero => simp [splitSubAux]
  | succ f =>
    simp only [splitSubAux]
    cases breakOnL pat cs with
    | none => simp
    | some p => cases p; simp

theorem breakOnL_eq {pat : List Char} {cs b a : List Char}
    (h : breakOnL pat cs = some (b, a)) : cs = b ++ pat ++ a := by
  induction cs generalizing b with
  | nil =>
    simp only [breakOnL] at h
    by_cases hp : pat.isEmpty
    · rw [if_pos hp] at h
      cases h
      simp [List.isEmpty_iff.mp hp]
    · rw [if_neg hp] at h
      cases h
  | cons c cs ih =>
    simp only [breakOnL] at h
    by_cases hp : pat.isPrefixOf (c :: cs)
    · rw [if_pos hp] at h
      cases h
      rcases (List.isPrefixOf_iff_prefix.mp hp) with ⟨t, ht⟩
      conv_lhs => rw [← ht]
      rw [← ht, List.drop_left]
      simp
    · rw [if_neg hp] at h
      cases hbr : breakOnL pat cs with
      | none => rw [hbr] at h; cases h
      | some p =>
        rcases p with ⟨b', a'⟩
        rw [hbr] at h
        cases h
        have := ih hbr
        simp [this]

theorem joinWith_cons_cons (sep b r : List Char) (rs : List (List Char)) :
    joinWith sep (b :: r :: rs) = b ++ sep ++ joinWith sep (r :: rs) := by
  simp [joinWith, List.append_assoc]

theorem joinWith_splitSubAux (pat : List Char) (f : Nat) (cs : List Char) :
    joinWith pat (splitSubAux pat f cs) = cs := by
  induction f generalizing cs with
  | zero => simp [splitSubAux, joinWith]
  | succ f ih =>
    simp only [splitSubAux]
    cases hbr : breakOnL pat cs with
    | none => simp [joinWith]
    | some p =>
      rcases p with ⟨b, a⟩
      show joinWith pat (b :: splitSubAux pat f a) = cs
      rcases List.exists_cons_of_ne_nil (splitSubAux_ne_nil pat f a) with ⟨r, rs, hr⟩
      rw [hr, joinWith_cons_cons, ← hr, ih a]
      exact (breakOnL_eq hbr).symm

theorem joinWith_splitSub (pat cs : List Char) :
    joinWith pat (splitSub pat cs) = cs :=
  joinWith_splitSubAux pat (cs.length + 1) cs

theorem filter_wsCollapseL (cs : List Char) :
    (wsCollapseL cs).filter (fun c => !c.isWhitespace) =
      cs.filter (fun c => !c.isWhitespace) := by
  unfold wsCollapseL
  rw [filter_joinWith _ _ _ (by decide), List.map_map]
  have hsec : ∀ sec : List Char,
      (List.filter (fun c => !c.isWhitespace) ∘
        fun sec => joinWith ['\n'] ((splitSub ['\n'] sec).map collapseLineL)) sec =
      sec.filter (fun c => !c.isWhitespace) := by
    intro sec
    simp only [Function.comp]
    rw [filter_joinWith _ _ _ (by decide), List.map_map]
    have hline : ∀ line : List Char,
        (List.filter (fun c => !c.isWhitespace) ∘ collapseLineL) line =
        line.filter (fun c => !c.isWhitespace) := fun line => filter_collapseLineL line
    rw [List.map_congr_left (fun l _ => hline l)]
    rw [← filter_flatten_char]
    conv_rhs => rw [← joinWith_splitSub ['\n'] sec]
    rw [filter_joinWith _ _ _ (by decide), ← filter_flatten_char]
  rw [List.map_congr_left (fun s _ => hsec s)]
  rw [← filter_flatten_char]
  conv_rhs => rw [← joinWith_splitSub ['\n', '\n'] cs]
  rw [filter_joinWith _ _ _ (by decide), ← filter_flatten_char]

/-- C6: streaming fidelity.  For every synthesized response `t` (the
output of the shared `generate_single_prompt_response` call that both
`generate_streaming_response` and the non-streaming `generate_answer`
make for the same `(question, passages)`), the concatenation of all
`chunk` frame contents equals `t` up to whitespace collapsing: it is
exactly `wsCollapse t`, and `wsCollapse` preserves every
non-whitespace character of `t` in order. -/
theorem streaming_fidelity (t : String) :
    String.join (generate_streaming_response_chunks t) = wsCollapse t ∧
    (wsCollapse t).data.filter (fun c => !c.isWhitespace) =
      t.data.filter (fun c => !c.isWhitespace) := by
  constructor
  · apply String.ext
    rw [wsCollapse]
    show (String.join ((streamChunksL t.data).map String.mk)).data = _
    rw [join_map_mk_data, flatten_streamChunksL]
  · exact filter_wsCollapseL t.data

/-! ## C3: phone normalization in contact extraction -/

set_option maxRecDepth 20000 in
/-- C3 counterexample: for the spec's scenario passage
`"CONTACT INFORMATION:\nPhone: 555-123-4567\n"`, `extract_contact_info`
returns the phone exactly as matched, `["555-123-4567"]`, not the claimed
normalized `["(555) 123-4567"]`: the labeled-block branch validates the
10-digit count but never reformats. -/
theorem contact_phone_format_counterexample :
    (Api.extract_contact_info [c3Chunk]).phones = ["555-123-4567"] ∧
    ¬ (Api.extract_contact_info [c3Chunk]).phones = ["(555) 123-4567"] := by
  decide

set_option maxRecDepth 20000 in
/-- C3 amended: the scenario passage yields `phones = ["555-123-4567"]`
(the raw matched text, validated to reduce to 10 digits but not
reformatted); normalization to `(NNN) NNN-NNNN` happens only in the
raw-text fallback scan, whose every phone is `formatPhone` of a 10-digit
all-digit string. -/
theorem contact_phone_format_amended :
    (Api.extract_contact_info [c3Chunk]).phones = ["555-123-4567"] ∧
    (∀ (chunks : List String) (p : String), p ∈ (Api.rawPass chunks).phones →
      ∃ d : String, d.data.all Char.isDigit = true ∧ d.length = 10 ∧
        p = Api.formatPhone d) := by
  constructor
  · decide
  · intro chunks p hp
    simp only [Api.rawPass] at hp
    rcases List.mem_flatten.mp hp with ⟨l, hl, hpl⟩
    rcases List.mem_map.mp hl with ⟨chunk, _, hchunk⟩
    subst hchunk
    rcases List.mem_filterMap.mp hpl with ⟨q, _, hq⟩
    by_cases hlen : (digitsOnly q).length = 10
    · rw [if_pos hlen] at hq
      refine ⟨digitsOnly q, ?_, hlen, (Option.some_injective _ hq).symm⟩
      apply List.all_eq_true.mpr
      intro c hc
      have := List.mem_filter.mp hc
      exact this.2
    · rw [if_neg hlen] at hq
      cases hq

set_option maxRecDepth 20000 in
/-- Witness for C3 (amended): the formatted phone extracted by the raw
scan from a concrete passage is `formatPhone` of a 10-digit string. -/
theorem contact_phone_format_amended_witness :
    ∃ d : String, d.data.all Char.isDigit = true ∧ d.length = 10 ∧
      "(555) 123-4567" = Api.formatPhone d :=
  contact_phone_format_amended.2 [c8ChunkRaw] "(555) 123-4567" (by decide)

/-! ## C8: labeled block versus raw-text fallback -/

set_option maxRecDepth 20000 in
/-- C8 counterexample: with passages
`["CONTACT INFORMATION:\nPhone: n/a", "call 555-123-4567 now"]`, a
labeled contact block exists (first passage), yet the raw-text fallback
still runs — because the labeled pass extracted nothing — and picks up
the phone from the second passage's raw text.  Under the claim the
result would have to come only from the labeled sub-fields, i.e. be
empty. -/
theorem contact_fallback_counterexample :
    containsSub c8ChunkLabeled "CONTACT INFORMATION:" = true ∧
    Api.extract_contact_info [c8ChunkLabeled, c8ChunkRaw] =
      ⟨[], ["(555) 123-4567"], [], []⟩ := by
  decide

theorem labeledPass_of_no_marker (chunks : List String)
    (h : ∀ c ∈ chunks, containsSub c "CONTACT INFORMATION:" = false) :
    Api.labeledPass chunks = ⟨[], [], [], []⟩ := by
  unfold Api.labeledPass
  induction chunks with
  | nil => rfl
  | cons c cs ih =>
    rw [List.foldl_cons]
    have hc := h c (List.mem_cons_self c cs)
    rw [if_neg (by rw [hc]; exact Bool.false_ne_true)]
    exact ih (fun x hx => h x (List.mem_cons_of_mem c hx))

/-- C8 amended: the raw-text fallback scan runs if and only if the
labeled pass extracted no values at all — which is implied by, but not
equivalent to, the absence of a labeled block: (1) when no passage
contains `"CONTACT INFORMATION:"`, the result is the post-processed raw
scan; (2) whenever the labeled pass extracted at least one value, the
result is the post-processed labeled pass alone; but a passage may
contain a labeled block whose sub-fields yield nothing, in which case
the fallback still runs (see the counterexample). -/
theorem contact_fallback_amended :
    (∀ chunks : List String,
      (∀ c ∈ chunks, containsSub c "CONTACT INFORMATION:" = false) →
      Api.extract_contact_info chunks = Api.postProcess (Api.rawPass chunks)) ∧
    (∀ chunks : List String, Api.anyValues (Api.labeledPass chunks) = true →
      Api.extract_contact_info chunks = Api.postProcess (Api.labeledPass chunks)) := by
  constructor
  · intro chunks h
    unfold Api.extract_contact_info
    rw [labeledPass_of_no_marker chunks h]
    rfl
  · intro chunks h
    unfold Api.extract_contact_info
    rw [if_pos h]

set_option maxRecDepth 20000 in
/-- Witness for C8 (amended) at concrete passages: a marker-free passage
list goes through the raw scan; a passage list whose labeled block
yields an email uses the labeled pass alone. -/
theorem contact_fallback_amended_witness :
    Api.extract_contact_info [c8ChunkRaw] = Api.postProcess (Api.rawPass [c8ChunkRaw]) ∧
    Api.extract_contact_info [c8ChunkEmail] =
      Api.postProcess (Api.labeledPass [c8ChunkEmail]) :=
  ⟨contact_fallback_amended.1 [c8ChunkRaw] (by decide),
   contact_fallback_amended.2 [c8ChunkEmail] (by decide)⟩

/-! ## C2: empty-passages answer synthesis -/

set_option maxRecDepth 8192 in
/-- C2 counterexample: with no passages and the deterministic fallback
path, `generate_answer("hello", [])` returns the conversational greeting
reply, not the fixed "no information found" text: the fallback's
greeting/capability keyword branches run before the empty-context
branch. -/
theorem empty_passages_counterexample :
    (Api.generate_answer none "hello" []).answer = Api.greetingText ∧
    Api.greetingText ≠ Api.noInfoText := by
  constructor
  · decide
  · decide

/-- C2 amended: `generate_answer(question, [])` always returns empty
structured fields (`sources = []`, `contact_info = {}`,
`categories = []`, `providers = []`) for every question and every LLM
outcome; and on the deterministic fallback path the answer text is one
of the two fixed "no information found" texts (urgent or plain,
depending on the urgency keywords) — but only for questions containing
no greeting or capability keywords; greeting or capability questions
get conversational replies instead. -/
theorem empty_passages_amended :
    ∀ (question : String) (llm : Option String),
      ((Api.generate_answer llm question []).sources = [] ∧
       (Api.generate_answer llm question []).contact_info = none ∧
       (Api.generate_answer llm question []).categories = [] ∧
       (Api.generate_answer llm question []).providers = []) ∧
      (Api.isGreetingQ question = false → Api.isCapabilityQ question = false →
        (Api.generate_answer none question []).answer =
          if Api.isUrgentQ question then Api.urgentNoInfoText else Api.noInfoText) := by
  intro question llm
  refine ⟨⟨rfl, rfl, rfl, rfl⟩, ?_⟩
  intro hg hc
  show Api.generate_single_prompt_response none question [] = _
  unfold Api.generate_single_prompt_response Api.simulate_llm_response
  rw [if_neg (by rw [hg]; exact Bool.false_ne_true),
    if_neg (by rw [hc]; exact Bool.false_ne_true),
    if_pos (show ([] : List String).isEmpty = true from rfl)]

set_option maxRecDepth 8192 in
/-- Witness for C2 (amended) at a concrete keyword-free question: the
fallback answer is the fixed plain "no information found" text. -/
theorem empty_passages_amended_witness :
    (Api.generate_answer none "can you get me food resources" []).answer =
      (if Api.isUrgentQ "can you get me food resources" then Api.urgentNoInfoText
       else Api.noInfoText) :=
  (empty_passages_amended "can you get me food resources" none).2 (by decide) (by decide)
